import Mathlib

/-!
Verification of the taskchain-orchestrator core (the `agent-orchestrator`
graph variant, which the design document designates as canonical).

The Python source is shallowly embedded: every pure fragment becomes an
executable Lean function over `List Char` strings, integers and rationals;
effectful fragments (the LLM adapter, the tool functions behind the gateway,
the SQLite/Chroma retrieval backends, wall-clock durations) are parameters of
the embedding, supplied as oracles, so that the surrounding control flow -
which is what the claims are about - is embedded exactly.

Strings are manipulated through their character lists (`String.data`) because
the character-list view reduces inside the kernel; each helper mirrors the
corresponding Python `str` method on the ASCII inputs the program uses.
-/

namespace TaskChain

/-- Python whitespace strip character class, matching `str.strip()` for the
ASCII inputs used here. -/
def isWS (c : Char) : Bool := c.isWhitespace

/-- `str.lower()` on the character list. -/
def lowerL (s : List Char) : List Char := s.map Char.toLower

/-- `str.upper()` on the character list. -/
def upperL (s : List Char) : List Char := s.map Char.toUpper

/-- `str.strip()` on the character list. -/
def trimL (s : List Char) : List Char :=
  ((s.dropWhile isWS).reverse.dropWhile isWS).reverse

/-- Python's `needle in hay` substring test on character lists. -/
def hasSubL (hay needle : List Char) : Bool :=
  match hay with
  | [] => needle.isEmpty
  | _ :: rest => needle.isPrefixOf hay || hasSubL rest needle

/-- `str.startswith` on character lists. -/
def startsWithL (s pre : List Char) : Bool := pre.isPrefixOf s

/-- Lookup in a string-keyed association list, modelling `dict.get(k, "")`
for string-valued context maps. -/
def ctxGet (ctx : List (List Char × List Char)) (k : List Char) : List Char :=
  match ctx.find? (fun kv => kv.fst == k) with
  | some kv => kv.snd
  | none => []

/-- Key membership for an association list, modelling `k in dict`. -/
def ctxHas (ctx : List (List Char × List Char)) (k : List Char) : Bool :=
  (ctx.find? (fun kv => kv.fst == k)).isSome

end TaskChain

namespace TaskChain.PlanNode

/-- `INCIDENT_HINTS` from `graph/nodes/plan.py`. -/
def INCIDENT_HINTS : List (List Char) :=
  ["incident".data, "outage".data, "sev".data, "latency".data, "error".data]

/-- One entry of the `plan_steps` list produced by the plan node.  The
deterministic planner emits dictionaries with exactly the keys
`id`, `tool`, `status`. -/
structure PlanStep where
  id : List Char
  tool : List Char
  status : List Char
deriving Repr, DecidableEq

/-- `_is_incident_request` from `graph/nodes/plan.py`: a hint keyword occurs
in the lowered input, or the context carries a non-empty `severity`, or a
`priority` that (lowered and stripped) starts with `p`. -/
def is_incident_request (user_input : List Char)
    (task_context : List (List Char × List Char)) : Bool :=
  let lowered := lowerL user_input
  if INCIDENT_HINTS.any (fun hint => hasSubL lowered hint) then
    true
  else
    let severity := trimL (lowerL (ctxGet task_context "severity".data))
    let priority := trimL (lowerL (ctxGet task_context "priority".data))
    !severity.isEmpty || startsWithL priority "p".data

/-- `_build_deterministic_plan` from `graph/nodes/plan.py`. -/
def build_deterministic_plan (user_input : List Char)
    (task_context : List (List Char × List Char)) : List PlanStep :=
  let base : List PlanStep :=
    [⟨"analyze_request".data, "summarize".data, "pending".data⟩,
     ⟨"extract_entities".data, "extract_entities".data, "pending".data⟩,
     ⟨"classify_priority".data, "classify_priority".data, "pending".data⟩]
  if is_incident_request user_input task_context then
    base ++
      [⟨"retrieve_incident_knowledge".data, "search_incident_knowledge".data, "pending".data⟩,
       ⟨"retrieve_previous_issues".data, "search_previous_issues".data, "pending".data⟩,
       ⟨"build_incident_brief".data, "build_incident_brief".data, "pending".data⟩]
  else
    base

/-- Planner telemetry record written under `telemetry["planner"]`.  The llm
success path stores provider/model keys, the fallback path stores a
fallback reason; absent keys are `none`. -/
structure PlannerTelemetry where
  requested_mode : List Char
  effective_mode : List Char
  fallback_used : Bool
  fallback_reason : Option (List Char) := none
  provider : Option (List Char) := none
  model : Option (List Char) := none
deriving Repr, DecidableEq

/-- The partial state patch returned by `plan.run`. -/
structure PlanRunOut where
  plan_steps : List PlanStep
  mode : Option (List Char) := none
  planner : PlannerTelemetry
deriving Repr, DecidableEq

/-- `run` from `graph/nodes/plan.py`.  The whole `try` body of the llm branch
(`_build_llm_plan` followed by `_enforce_minimum_plan_shape`) performs a
network call, so it is supplied as an oracle `llm_attempt`: `.ok steps` when
the body returns, `.error e` when it raises an exception whose `str` is `e`.
Every other branch is embedded from the source. -/
def run (requested_mode : List Char) (llm_attempt : Except (List Char) (List PlanStep))
    (provider model : List Char) (user_input : List Char)
    (task_context : List (List Char × List Char)) : PlanRunOut :=
  let requested := lowerL requested_mode
  if requested = "llm".data then
    match llm_attempt with
    | .ok steps =>
        { plan_steps := steps,
          planner :=
            { requested_mode := "llm".data, effective_mode := "llm".data,
              fallback_used := false, provider := some provider, model := some model } }
    | .error exc =>
        { plan_steps := build_deterministic_plan user_input task_context,
          mode := some "deterministic".data,
          planner :=
            { requested_mode := "llm".data, effective_mode := "deterministic".data,
              fallback_used := true, fallback_reason := some exc } }
  else
    { plan_steps := build_deterministic_plan user_input task_context,
      planner :=
        { requested_mode := requested, effective_mode := "deterministic".data,
          fallback_used := false } }

/-- The incident signal as claim C4 words it: a hint keyword in the input
text, or *any* severity or priority context value present.  (Stated from the
specification's words, for comparison with `is_incident_request`.) -/
def claimedIncidentSignal (user_input : List Char)
    (task_context : List (List Char × List Char)) : Bool :=
  INCIDENT_HINTS.any (fun hint => hasSubL (lowerL user_input) hint) ||
    ctxHas task_context "severity".data || ctxHas task_context "priority".data

/-- The deterministic plan's tool sequence as claim C4 words it: the three
core tools, then (iff the claimed incident signal holds) the three incident
tools, before a trailing summarize step.  (Stated from the specification's
words, for comparison with `build_deterministic_plan`.) -/
def claimedDeterministicPlanTools (user_input : List Char)
    (task_context : List (List Char × List Char)) : List (List Char) :=
  ["summarize".data, "extract_entities".data, "classify_priority".data] ++
    (if claimedIncidentSignal user_input task_context then
       ["search_incident_knowledge".data, "search_previous_issues".data,
        "build_incident_brief".data, "summarize".data]
     else [])

end TaskChain.PlanNode

namespace TaskChain.VerifyNode

/-- One element of a tool's `data["results"]` list, flattening the dict keys
the verifier and the retrieval tools read (absent keys default to `""`). -/
structure ResultItem where
  title : List Char := []
  source_id : List Char := []
  snippet : List Char := []
  ticket : List Char := []
  doc_id : List Char := []
  chunk_id : List Char := []
  summary : List Char := []
deriving Repr, DecidableEq

/-- A tool result's `data` dict, flattening the keys the verifier reads
(absent keys default to `""` / `[]`, matching `.get(..., default)`). -/
structure ToolData where
  summary : List Char := []
  entities : List (List Char) := []
  results : List ResultItem := []
deriving Repr, DecidableEq

/-- One value of the `tool_results` map. -/
structure ToolPayload where
  status : List Char
  data : ToolData := {}
deriving Repr, DecidableEq

/-- The `tool_results` map, as an insertion-ordered association list (keys
unique per tool name, as in the Python dict). -/
abbrev ToolResults := List (List Char × ToolPayload)

/-- `tool_results.get(name, {}).get("data", {})`. -/
def dataOf (tool_results : ToolResults) (name : List Char) : ToolData :=
  match tool_results.find? (fun kv => kv.fst == name) with
  | some kv => kv.snd.data
  | none => {}

/-- `name in tool_results`. -/
def hasTool (tool_results : ToolResults) (name : List Char) : Bool :=
  (tool_results.find? (fun kv => kv.fst == name)).isSome

/-- `REQUIRED_TOOLS` from `graph/nodes/verify.py`. -/
def REQUIRED_TOOLS : List (List Char) :=
  ["summarize".data, "extract_entities".data, "classify_priority".data]

/-- `INCIDENT_HINTS` from `graph/nodes/verify.py`. -/
def INCIDENT_HINTS : List (List Char) :=
  ["incident".data, "outage".data, "sev".data, "latency".data, "error".data]

/-- `POLICY_TERMS` from `graph/nodes/verify.py`. -/
def POLICY_TERMS : List (List Char) := ["policy".data, "runbook".data]

/-- `_summary_entity_consistency_issues` from `graph/nodes/verify.py`. -/
def summary_entity_consistency_issues (tool_results : ToolResults) : List (List Char) :=
  let summary := (dataOf tool_results "summarize".data).summary
  let entities := (dataOf tool_results "extract_entities".data).entities
  if (trimL summary).isEmpty then
    ["missing_or_empty_summary".data]
  else if entities.isEmpty then
    []
  else
    let lowered := lowerL summary
    let missing_entities := entities.filter (fun e => !hasSubL lowered (lowerL e))
    let threshold := max 1 (entities.length / 2)
    if missing_entities.length > threshold then
      ["summary_missing_entities:".data ++ List.intercalate ",".data (missing_entities.take 5)]
    else
      []

/-- `_incident_citation_quality_failures` from `graph/nodes/verify.py`. -/
def incident_citation_quality_failures (knowledge_results previous_issue_results : List ResultItem) :
    List (List Char) :=
  (if !knowledge_results.isEmpty then
     (if knowledge_results.any (fun item => !(trimL item.source_id).isEmpty) then []
      else ["missing_incident_citation_metadata".data]) ++
       (if knowledge_results.any (fun item => !(trimL item.snippet).isEmpty) then []
        else ["missing_incident_snippet_evidence".data])
   else []) ++
    (if !previous_issue_results.isEmpty then
       (if previous_issue_results.any (fun item =>
             !(trimL item.ticket).isEmpty || !(trimL item.doc_id).isEmpty ||
               !(trimL item.chunk_id).isEmpty) then []
        else ["missing_previous_issue_citation_metadata".data]) ++
         (if previous_issue_results.any (fun item => !(trimL item.summary).isEmpty) then []
          else ["missing_previous_issue_snippet_evidence".data])
     else [])

/-- The dict returned by `_incident_gate_result`. -/
structure IncidentGate where
  required : Bool
  passed : Bool
  failures : List (List Char)
deriving Repr, DecidableEq

/-- `_incident_gate_result` from `graph/nodes/verify.py`. -/
def incident_gate_result (user_input : List Char) (tool_results : ToolResults) : IncidentGate :=
  let incident_required := INCIDENT_HINTS.any (fun hint => hasSubL (lowerL user_input) hint)
  if !incident_required then
    { required := false, passed := true, failures := [] }
  else
    let knowledge_results := (dataOf tool_results "search_incident_knowledge".data).results
    let previous_issue_results := (dataOf tool_results "search_previous_issues".data).results
    let failures :=
      (if knowledge_results.isEmpty then ["missing_incident_knowledge_evidence".data] else []) ++
        (if previous_issue_results.isEmpty then ["missing_previous_issue_evidence".data] else []) ++
        incident_citation_quality_failures knowledge_results previous_issue_results ++
        (if knowledge_results.any (fun item =>
              POLICY_TERMS.any (fun term => hasSubL (lowerL item.title) term)) then []
         else ["missing_policy_citation".data])
    { required := true, passed := failures.isEmpty, failures := failures }

/-- The `retry` sub-dict of a verification result. -/
structure RetryInfo where
  count : Int
  budget : Int
  remaining : Int
  budget_exhausted : Bool
deriving Repr, DecidableEq

/-- The `verification` dict produced by `verify.run`. -/
structure Verification where
  passed : Bool
  missing_tools : List (List Char)
  failed_tools : List (List Char)
  gate_failures : List (List Char)
  consistency_issues : List (List Char)
  incident_gate : IncidentGate
  retry : RetryInfo
deriving Repr, DecidableEq

/-- The partial state patch returned by `verify.run`. -/
structure VerifyOut where
  verification : Verification
  retry_count : Int
deriving Repr, DecidableEq

/-- `run` from `graph/nodes/verify.py`.  `retry_count` and `retry_budget` are
the values read from the state (`int(state.get(...))`, Python integers). -/
def run (user_input : List Char) (tool_results : ToolResults)
    (retry_count retry_budget : Int) : VerifyOut :=
  let missing := REQUIRED_TOOLS.filter (fun tool => !hasTool tool_results tool)
  let failed :=
    (tool_results.filter (fun kv => kv.snd.status == "failed".data)).map (fun kv => kv.fst)
  let consistency_issues := summary_entity_consistency_issues tool_results
  let incident_gate := incident_gate_result user_input tool_results
  let gate_failures :=
    (if !consistency_issues.isEmpty then ["summary_entity_inconsistency".data] else []) ++
      (if incident_gate.required && !incident_gate.passed then incident_gate.failures else [])
  let passed := missing.isEmpty && failed.isEmpty && gate_failures.isEmpty
  let new_retry_count := retry_count + (if passed then 0 else 1)
  { verification :=
      { passed := passed, missing_tools := missing, failed_tools := failed,
        gate_failures := gate_failures, consistency_issues := consistency_issues,
        incident_gate := incident_gate,
        retry :=
          { count := new_retry_count, budget := retry_budget,
            remaining := max 0 (retry_budget - new_retry_count),
            budget_exhausted := new_retry_count ≥ retry_budget } },
    retry_count := new_retry_count }

end TaskChain.VerifyNode

namespace TaskChain.Workflow

/-- `_should_retry` from `graph/workflow.py`, evaluated on the state after the
verify patch is merged: `retry_count` is therefore the count the verifier just
wrote. -/
def should_retry (verification_passed : Bool) (retry_count retry_budget : Int) : List Char :=
  if verification_passed then "done".data
  else if retry_count < retry_budget then "retry".data
  else "done".data

end TaskChain.Workflow

namespace TaskChain.Gateway

/-- The dict returned by `ToolExecutor.execute` (`tools/gateway.py`).  The
`output` payload is kept opaque; `duration_ms` is wall-clock telemetry and is
supplied by the caller's clock. -/
structure ExecOutcome where
  tool : List Char
  status : List Char
  output : List Char := []
  error : List Char := []
  implementation : List Char
  attempts : Nat
  duration_ms : ℚ
deriving Repr, DecidableEq

/-- The outcome of one `_execute_once` call for attempt number `k`.  The
registry lookup is embedded (an unknown name raises
`ValueError(f"Unknown tool: ...")` before anything else runs); everything
after the lookup — pydantic argument validation, running `fn` on the bounded
worker, the timeout, output validation — either returns a payload or raises,
and is supplied as the oracle `once`: `.ok out` when attempt `k` returns
`out`, `.error e` when it raises an exception whose `str` is `e`. -/
def attemptOutcome (registered : List Char → Bool)
    (once : Nat → Except (List Char) (List Char)) (tool_name : List Char) (k : Nat) :
    Except (List Char) (List Char) :=
  if registered tool_name then once k
  else .error ("Unknown tool: ".data ++ tool_name)

/-- The retry loop of `ToolExecutor.execute`
(`for attempt in range(max_retries + 1)`), written with the number of
remaining retries as the structural counter: `remaining = max_retries - k`
where `k` is the Python `attempt` index.  Returns the final outcome together
with the `attempts` counter (`attempt + 1` at loop exit).  The backoff sleep
has no observable effect in the embedding. -/
def runAttempts (f : Nat → Except (List Char) (List Char)) :
    Nat → Nat → Except (List Char) (List Char) × Nat
  | 0, k =>
      (match f k with
       | .ok out => (.ok out, k + 1)
       | .error e => (.error e, k + 1))
  | remaining + 1, k =>
      (match f k with
       | .ok out => (.ok out, k + 1)
       | .error _ => runAttempts f remaining (k + 1))

/-- `ToolExecutor.execute` from `tools/gateway.py`. -/
def execute (registered : List Char → Bool) (implementation_of : List Char → List Char)
    (once : Nat → Except (List Char) (List Char)) (max_retries : Nat)
    (tool_name : List Char) (dur : ℚ) : ExecOutcome :=
  let implementation :=
    if registered tool_name then implementation_of tool_name else "unknown".data
  match runAttempts (attemptOutcome registered once tool_name) max_retries 0 with
  | (.ok out, attempts) =>
      { tool := tool_name, status := "ok".data, output := out,
        implementation := implementation, attempts := attempts, duration_ms := dur }
  | (.error e, attempts) =>
      { tool := tool_name, status := "failed".data, error := e,
        implementation := implementation, attempts := attempts, duration_ms := dur }

end TaskChain.Gateway

namespace TaskChain.ExecuteNode

/-- One stored value of the `tool_results` map as written by `execute.run`:
on success keys `status/data/implementation/attempts/duration_ms`, on failure
`status/error/implementation/attempts/duration_ms` (the unused side defaults
to empty). -/
structure ToolEntry where
  status : List Char
  data : List Char := []
  error : List Char := []
  implementation : List Char := []
  attempts : Nat := 0
  duration_ms : ℚ := 0
deriving Repr, DecidableEq

/-- One element of `telemetry["tool_execution"]["events"]`, appended per
actual tool invocation. -/
structure ToolEvent where
  iteration : Int
  tool : List Char
  status : List Char
  implementation : List Char
  attempts : Nat
  duration_ms : ℚ
deriving Repr, DecidableEq

/-- One element of `plan_steps` as the execute node reads it (`step.get("tool")`,
`step.get("args")`); a missing/empty tool name is modelled by `[]`. -/
structure ExecStep where
  id : List Char := []
  tool : List Char
  args : Option (List Char) := none
deriving Repr, DecidableEq

/-- The `tool_results` dict: insertion-ordered association list. -/
abbrev ToolMap := List (List Char × ToolEntry)

/-- `tool_results.get(name)`. -/
def lookupTool (m : ToolMap) (k : List Char) : Option ToolEntry :=
  (m.find? (fun kv => kv.fst == k)).map (fun kv => kv.snd)

/-- `tool_results[name] = entry`: replace in place when the key exists
(Python dicts keep the key's position), else append. -/
def setTool (m : ToolMap) (k : List Char) (v : ToolEntry) : ToolMap :=
  if (m.find? (fun kv => kv.fst == k)).isSome then
    m.map (fun kv => if kv.fst == k then (k, v) else kv)
  else
    m ++ [(k, v)]

/-- The skip test of `execute.run`: an existing entry whose status is `ok`. -/
def shouldSkip (m : ToolMap) (tool : List Char) : Bool :=
  match lookupTool m tool with
  | some e => e.status == "ok".data
  | none => false

/-- The `tool_results[tool_name] = {...}` entry written after a gateway
call: the success dict on `ok`, the failure dict otherwise
(`graph/nodes/execute.py`). -/
def buildEntry (result : Gateway.ExecOutcome) : ToolEntry :=
  if result.status = "ok".data then
    { status := "ok".data, data := result.output,
      implementation := result.implementation, attempts := result.attempts,
      duration_ms := result.duration_ms }
  else
    { status := "failed".data, error := result.error,
      implementation := result.implementation, attempts := result.attempts,
      duration_ms := result.duration_ms }

/-- The telemetry event appended per actual invocation
(`graph/nodes/execute.py`). -/
def buildEvent (iteration : Int) (tool : List Char) (result : Gateway.ExecOutcome) :
    ToolEvent :=
  { iteration := iteration, tool := tool, status := result.status,
    implementation := result.implementation, attempts := result.attempts,
    duration_ms := result.duration_ms }

/-- The per-step loop of `execute.run` (`graph/nodes/execute.py`).
`executor` is the gateway call `executor.execute(tool_name, args)` (its
internals are verified separately in the `Gateway` namespace);
`resolve_args` embeds `_resolve_step_args`, whose output feeds only the
executor.  Steps with an empty tool name are skipped; steps whose existing
result is `ok` are skipped; otherwise the tool is invoked, its result entry
is (over)written, and an event is appended. -/
def executeSteps (executor : List Char → List Char → Gateway.ExecOutcome)
    (resolve_args : List Char → Option (List Char) → ToolMap → List Char)
    (iteration : Int) :
    List ExecStep → ToolMap → List ToolEvent → ToolMap × List ToolEvent
  | [], tool_results, events => (tool_results, events)
  | step :: rest, tool_results, events =>
      if step.tool.isEmpty then
        executeSteps executor resolve_args iteration rest tool_results events
      else if shouldSkip tool_results step.tool then
        executeSteps executor resolve_args iteration rest tool_results events
      else
        let result := executor step.tool (resolve_args step.tool step.args tool_results)
        executeSteps executor resolve_args iteration rest
          (setTool tool_results step.tool (buildEntry result))
          (events ++ [buildEvent iteration step.tool result])

/-- The partial state patch of `execute.run` restricted to the fields the
node computes from the loop: the updated `tool_results`, the accumulated
event log, and the `tool_execution` summary counters. -/
structure ExecRunOut where
  tool_results : ToolMap
  events : List ToolEvent
  executed_tools : Nat
  failed_tools : Nat
deriving Repr, DecidableEq

/-- `run` from `graph/nodes/execute.py` (loop and telemetry summary;
registry resolution and settings are environment inputs folded into
`executor`). -/
def run (executor : List Char → List Char → Gateway.ExecOutcome)
    (resolve_args : List Char → Option (List Char) → ToolMap → List Char)
    (iteration : Int) (plan_steps : List ExecStep) (tool_results : ToolMap)
    (history : List ToolEvent) : ExecRunOut :=
  let out := executeSteps executor resolve_args iteration plan_steps tool_results history
  { tool_results := out.1, events := out.2, executed_tools := out.2.length,
    failed_tools := (out.2.filter (fun ev => ev.status ≠ "ok".data)).length }

end TaskChain.ExecuteNode

namespace TaskChain

/-- Maximal runs of characters satisfying `p`, in order — the split skeleton
shared by `re.findall(r"[a-z0-9_:-]+", ...)` and `str.split()`. -/
def runsBy (p : Char → Bool) : List Char → List Char → List (List Char)
  | cur, [] => if cur.isEmpty then [] else [cur.reverse]
  | cur, c :: rest =>
      if p c then runsBy p (c :: cur) rest
      else if cur.isEmpty then runsBy p [] rest
      else cur.reverse :: runsBy p [] rest

/-- The token character class `[a-z0-9_:-]` of the retrieval tokenizers. -/
def isTokChar (c : Char) : Bool :=
  (Char.ofNat 97 ≤ c && c ≤ Char.ofNat 122) ||
    (Char.ofNat 48 ≤ c && c ≤ Char.ofNat 57) ||
    c == Char.ofNat 95 || c == Char.ofNat 58 || c == Char.ofNat 45

/-- Deduplicate keeping first occurrences: the list stands for the Python
`set` (only membership and cardinality are ever used downstream). -/
def dedupL : List (List Char) → List (List Char)
  | [] => []
  | t :: rest =>
      if (dedupL rest).contains t then dedupL rest else t :: dedupL rest

/-- Lexicographic comparison of character lists, matching Python string
ordering on the ASCII inputs used here (for `sorted`). -/
def charListLe : List Char → List Char → Bool
  | [], _ => true
  | _ :: _, [] => false
  | a :: as, b :: bs => if a < b then true else if b < a then false else charListLe as bs

/-- Stable insertion: `x` goes in front of the first element that is not
strictly below it, so earlier-listed elements stay ahead of equivalent
later ones. -/
def sInsert (le : α → α → Bool) (x : α) : List α → List α
  | [] => [x]
  | b :: bs => if le b x && !le x b then b :: sInsert le x bs else x :: b :: bs

/-- Stable sort by a total boolean preorder `le` — extensionally the sort
Python's `sorted`/`list.sort` computes (a stable sort is unique for a total
preorder), written with structural recursion so that concrete runs reduce
inside the kernel. -/
def stableSort (le : α → α → Bool) : List α → List α
  | [] => []
  | x :: xs => sInsert le x (stableSort le xs)

end TaskChain

namespace TaskChain.PreviousIssues

/-- The `PreviousIssueHit` dataclass from `retrieval/previous_issues.py`. -/
structure PreviousIssueHit where
  ticket : List Char
  summary : List Char
  relevance : ℚ
  chunk_id : List Char := []
  doc_id : List Char := []
  source : List Char := []
  score : ℚ := 0
  retrieval_mode : List Char := []
  why_selected : List Char := []
deriving Repr, DecidableEq

/-- Round-half-to-even on the integers, the rounding mode of Python's
built-in `round`. -/
def roundHalfEven (q : ℚ) : ℤ :=
  let f := ⌊q⌋
  let r := q - f
  if r < 1 / 2 then f
  else if 1 / 2 < r then f + 1
  else if f % 2 = 0 then f else f + 1

/-- Python `round(q, 4)` over exact rationals. -/
def round4 (q : ℚ) : ℚ := (roundHalfEven (q * 10000) : ℚ) / 10000

/-- `_bm25_to_relevance` from `retrieval/previous_issues.py`:
`round(1.0 / (1.0 + max(score, 0.0)), 4)`, modelled over exact rationals
(the Python float computation agrees at every value used in the theorems
below). -/
def bm25_to_relevance (score : ℚ) : ℚ := round4 (1 / (1 + max score 0))

/-- `_normalize_token`: `token.strip(":-_")`. -/
def stripPunct (t : List Char) : List Char :=
  let isP : Char → Bool := fun c => c == Char.ofNat 58 || c == Char.ofNat 45 || c == Char.ofNat 95
  ((t.dropWhile isP).reverse.dropWhile isP).reverse

/-- `_tokenize` from `retrieval/previous_issues.py`: normalized tokens of
length > 1, as a set (deduplicated list). -/
def tokenizePI (s : List Char) : List (List Char) :=
  dedupL (((runsBy isTokChar [] (lowerL s)).map stripPunct).filter (fun t => t.length > 1))

/-- `len(q_tokens & _tokenize(text))`: the number of distinct shared
tokens. -/
def overlapCount (q_tokens ts : List (List Char)) : Nat :=
  (ts.filter (fun t => q_tokens.contains t)).length

/-- `_append_reason` from `retrieval/previous_issues.py`. -/
def append_reason (existing suffix : List Char) : List Char :=
  let base := trimL existing
  if base.isEmpty then suffix else base ++ [Char.ofNat 32] ++ suffix

/-- Decimal rendering of a natural number (for the rerank rationale's
`matched_terms` count). -/
def natDigits (n : Nat) : List Char :=
  if h : n < 10 then [Char.ofNat (48 + n)]
  else natDigits (n / 10) ++ [Char.ofNat (48 + n % 10)]
decreasing_by exact Nat.div_lt_self (by omega) (by omega)

/-- `_dedupe_hits` key: `hit.ticket.strip().upper()` — note: no doc-id
fallback in the source. -/
def dedupeKey (h : PreviousIssueHit) : List Char := upperL (trimL h.ticket)

/-- The `seen`-set loop of `_dedupe_hits`. -/
def dedupeGo (seen : List (List Char)) : List PreviousIssueHit → List PreviousIssueHit
  | [] => []
  | h :: rest =>
      if seen.contains (dedupeKey h) then dedupeGo seen rest
      else h :: dedupeGo (dedupeKey h :: seen) rest

/-- `_dedupe_hits` from `retrieval/previous_issues.py`. -/
def dedupe_hits (hits : List PreviousIssueHit) : List PreviousIssueHit := dedupeGo [] hits

/-- The dedup keying as claim C9 words it: uppercased ticket, falling back
to the doc id when the ticket is unavailable.  (Stated from the
specification's words, for comparison with `dedupeKey`.) -/
def claimedDedupeKey (h : PreviousIssueHit) : List Char :=
  if (upperL (trimL h.ticket)).isEmpty then h.doc_id else upperL (trimL h.ticket)

/-- The claim's dedup loop, differing from `dedupeGo` only in the key.
(Stated from the specification's words.) -/
def claimedDedupeGo (seen : List (List Char)) : List PreviousIssueHit → List PreviousIssueHit
  | [] => []
  | h :: rest =>
      if seen.contains (claimedDedupeKey h) then claimedDedupeGo seen rest
      else h :: claimedDedupeGo (claimedDedupeKey h :: seen) rest

/-- RRF candidate key: `hit.chunk_id or hit.doc_id or hit.ticket.strip().upper()`. -/
def fuseKey (h : PreviousIssueHit) : List Char :=
  if !h.chunk_id.isEmpty then h.chunk_id
  else if !h.doc_id.isEmpty then h.doc_id
  else upperL (trimL h.ticket)

/-- One value of the `scored` dict inside `_fuse_hybrid_hits`
(`sources_seen` is modelled by the two flags `seen_lex`/`seen_vec`). -/
structure FuseItem where
  score : ℚ
  hit : PreviousIssueHit
  lexical_seen : Bool
  seen_lex : Bool
  seen_vec : Bool
deriving Repr, DecidableEq

/-- The mutation applied by `add_hit` to an existing `scored` entry:
`score += 1/(k + rank + 1)` with `k = 60`, keep the higher-relevance hit,
record the source kind. -/
def bumpItem (item : FuseItem) (h : PreviousIssueHit) (rank : Nat) (kind : List Char) :
    FuseItem :=
  { score := item.score + 1 / (60 + (rank : ℚ) + 1),
    hit := if h.relevance > item.hit.relevance then h else item.hit,
    lexical_seen := item.lexical_seen || (kind == "lexical".data),
    seen_lex := item.seen_lex || (kind == "lexical".data),
    seen_vec := item.seen_vec || (kind == "vector".data) }

/-- The fresh `scored` entry created by `add_hit` before its mutation. -/
def newItem (h : PreviousIssueHit) (kind : List Char) : FuseItem :=
  { score := 0, hit := h, lexical_seen := kind == "lexical".data,
    seen_lex := kind == "lexical".data, seen_vec := kind == "vector".data }

/-- `add_hit` from `_fuse_hybrid_hits`: insertion-ordered dict upsert; an
empty key is dropped. -/
def addHit (scored : List (List Char × FuseItem)) (h : PreviousIssueHit) (rank : Nat)
    (kind : List Char) : List (List Char × FuseItem) :=
  let key := fuseKey h
  if key.isEmpty then scored
  else if (scored.find? (fun kv => kv.fst == key)).isSome then
    scored.map (fun kv => if kv.fst == key then (key, bumpItem kv.snd h rank kind) else kv)
  else
    scored ++ [(key, bumpItem (newItem h kind) h rank kind)]

/-- The `for rank, hit in enumerate(...)` loops feeding `add_hit`. -/
def addHits (scored : List (List Char × FuseItem)) (kind : List Char) (rank : Nat) :
    List PreviousIssueHit → List (List Char × FuseItem)
  | [] => scored
  | h :: rest => addHits (addHit scored h rank kind) kind (rank + 1) rest

/-- Lexicographic `≤` on the `(score, lexical_seen, relevance)` sort key. -/
def tripleLe (a b : ℚ × ℚ × ℚ) : Bool :=
  if a.1 < b.1 then true
  else if b.1 < a.1 then false
  else if a.2.1 < b.2.1 then true
  else if b.2.1 < a.2.1 then false
  else a.2.2 ≤ b.2.2

/-- The `sorted(..., reverse=True)` key of `_fuse_hybrid_hits`. -/
def fuseSortKey (i : FuseItem) : ℚ × ℚ × ℚ :=
  (i.score, if i.lexical_seen then 1 else 0, i.hit.relevance)

/-- The output projection of `_fuse_hybrid_hits`: rounded fused score, mode
tag (`hybrid` when seen in both lists), fused/kept rationale. -/
def fusedOutput (item : FuseItem) : PreviousIssueHit :=
  let score := round4 item.score
  if item.seen_lex && item.seen_vec then
    { item.hit with
      score := score,
      retrieval_mode := "hybrid".data,
      why_selected := "fused lexical and vector candidates via reciprocal-rank fusion.".data }
  else
    { item.hit with
      score := score,
      retrieval_mode := if item.lexical_seen then "lexical".data else "vector".data,
      why_selected :=
        append_reason item.hit.why_selected "kept after hybrid candidate fusion.".data }

/-- `_fuse_hybrid_hits` from `retrieval/previous_issues.py`. -/
def fuse_hybrid_hits (lexical_hits vector_hits : List PreviousIssueHit) :
    List PreviousIssueHit :=
  if lexical_hits.isEmpty && vector_hits.isEmpty then []
  else if lexical_hits.isEmpty then vector_hits
  else if vector_hits.isEmpty then lexical_hits
  else
    let scored := addHits (addHits [] "lexical".data 0 lexical_hits) "vector".data 0 vector_hits
    let ranked :=
      stableSort (fun x y => tripleLe (fuseSortKey y) (fuseSortKey x))
        (scored.map (fun kv => kv.snd))
    ranked.map fusedOutput

/-- Lexicographic `≤` on the `(overlap, relevance)` rerank key. -/
def pairLe (a b : Nat × ℚ) : Bool :=
  if a.1 < b.1 then true else if b.1 < a.1 then false else a.2 ≤ b.2

/-- `_deterministic_rerank` from `retrieval/previous_issues.py`. -/
def deterministic_rerank (query : List Char) (hits : List PreviousIssueHit) :
    List PreviousIssueHit :=
  let q_tokens := tokenizePI query
  let key : PreviousIssueHit → Nat × ℚ :=
    fun h => (overlapCount q_tokens (tokenizePI h.summary), h.relevance)
  let reranked := stableSort (fun x y => pairLe (key y) (key x)) hits
  reranked.map (fun h =>
    { h with
      why_selected := append_reason h.why_selected
        ("reranked by lexical overlap (matched_terms=".data ++
          natDigits (overlapCount q_tokens (tokenizePI h.summary)) ++ ").".data) })

/-- `search_previous_issues` from `retrieval/previous_issues.py`, from the
point where the backends have answered: `lexical_hits` is what the SQLite
relaxation ladder produced (empty on missing index or exception),
`vector_hits` what the Chroma adapter produced; when hybrid mode is off the
vector list is never fetched.  Fusion, the empty-fusion fallback, optional
deterministic rerank, dedup, and truncation to `max(limit, 1)` are embedded
from the source. -/
def search_previous_issues (lexical_hits vector_hits : List PreviousIssueHit)
    (limit : Int) (use_llm_rerank use_hybrid : Bool) (query : List Char) :
    List PreviousIssueHit :=
  let normalized_limit := max limit 1
  let fetched_vector := if use_hybrid then vector_hits else []
  let fused := fuse_hybrid_hits lexical_hits fetched_vector
  let hits :=
    if fused.isEmpty then
      (if !lexical_hits.isEmpty then lexical_hits else fetched_vector)
    else fused
  let hits := if use_llm_rerank then deterministic_rerank query hits else hits
  (dedupe_hits hits).take normalized_limit.toNat

end TaskChain.PreviousIssues

namespace TaskChain.IncidentKnowledge

/-- The `KnowledgeChunk` dataclass from `retrieval/incident_knowledge.py`. -/
structure KnowledgeChunk where
  title : List Char
  text : List Char
  source_type : List Char
  source_id : List Char
  service : Option (List Char) := none
  severity : Option (List Char) := none
deriving Repr, DecidableEq

/-- `_tokenize` from `retrieval/incident_knowledge.py`: lowercase token runs
of length > 1, as a set (no punctuation normalization here, unlike the
previous-issues tokenizer). -/
def tokenizeIK (s : List Char) : List (List Char) :=
  dedupL ((runsBy isTokChar [] (lowerL s)).filter (fun t => t.length > 1))

/-- An exact nonnegative fraction `num / den` (`den > 0` at every use site).
`_lexical_overlap` returns `overlap / sqrt(|q| * |c|)`; the embedding
carries the **square** of that score as an exact fraction, which is
order-isomorphic to the nonnegative float score (the code only ever
compares scores and tests positivity, and `x ↦ x²` is strictly monotone on
nonnegative reals), keeping every comparison inside decidable natural
arithmetic. -/
structure ScoreSq where
  num : Nat
  den : Nat
deriving Repr, DecidableEq

/-- Fraction comparison by cross-multiplication. -/
def scoreLe (a b : ScoreSq) : Bool := decide (a.num * b.den ≤ b.num * a.den)

/-- `score > 0` (`den > 0` at every use site). -/
def scorePos (a : ScoreSq) : Bool := decide (0 < a.num)

/-- `_lexical_overlap` from `retrieval/incident_knowledge.py`, as its
square: `0` when the chunk has no tokens or no overlap, else
`overlap² / (|queryTokens| · |chunkTokens|)`. -/
def lexical_overlap_sq (query_tokens : List (List Char)) (text : List Char) : ScoreSq :=
  let tokens := tokenizeIK text
  if tokens.isEmpty then ⟨0, 1⟩
  else
    let overlap := (query_tokens.filter (fun t => tokens.contains t)).length
    if overlap = 0 then ⟨0, 1⟩
    else ⟨overlap * overlap, query_tokens.length * tokens.length⟩

/-- Python truthiness of an optional string. -/
def truthy : Option (List Char) → Bool
  | none => false
  | some s => !s.isEmpty

/-- `.lower()` of an optional string (empty when absent). -/
def optLower : Option (List Char) → List Char
  | none => []
  | some s => lowerL s

/-- `.upper()` of an optional string (empty when absent). -/
def optUpper : Option (List Char) → List Char
  | none => []
  | some s => upperL s

/-- The two `continue` filters of `search_incident_knowledge`: a chunk is
kept unless a truthy filter and a truthy chunk field disagree. -/
def passes_filters (service severity : Option (List Char)) (c : KnowledgeChunk) : Bool :=
  !(truthy service && truthy c.service && (optLower c.service != optLower service)) &&
    !(truthy severity && truthy c.severity && (optUpper c.severity != optUpper severity))

/-- The candidate pool of `search_incident_knowledge`: filtered chunks with
strictly positive lexical overlap, in corpus order (pre-sort). -/
def rankedCandidates (query_tokens : List (List Char))
    (service severity : Option (List Char)) (corpus : List KnowledgeChunk) :
    List (ScoreSq × KnowledgeChunk) :=
  (corpus.filter (passes_filters service severity)).filterMap (fun c =>
    let s := lexical_overlap_sq query_tokens c.text
    if scorePos s then some (s, c) else none)

/-- `_has_policy_or_runbook`'s per-chunk test. -/
def isPolicyOrRunbook (c : KnowledgeChunk) : Bool :=
  hasSubL (lowerL c.title) "policy".data || hasSubL (lowerL c.title) "runbook".data

/-- `_has_policy_or_runbook` from `retrieval/incident_knowledge.py`. -/
def has_policy_or_runbook (chunks : List KnowledgeChunk) : Bool :=
  chunks.any isPolicyOrRunbook

/-- `_best_policy_or_runbook` from `retrieval/incident_knowledge.py`: first
policy/runbook chunk of the ranked (descending) list. -/
def best_policy_or_runbook (ranked : List (ScoreSq × KnowledgeChunk)) :
    Option KnowledgeChunk :=
  (ranked.find? (fun sc => isPolicyOrRunbook sc.snd)).map (fun sc => sc.snd)

/-- `_score_for_chunk` from `retrieval/incident_knowledge.py`. -/
def score_for_chunk (ranked : List (ScoreSq × KnowledgeChunk)) (target : KnowledgeChunk) :
    ScoreSq :=
  match ranked.find? (fun sc => sc.snd == target) with
  | some sc => sc.fst
  | none => ⟨0, 1⟩

/-- `_snippet` from `retrieval/incident_knowledge.py` (`max_chars = 260`). -/
def snippetL (text : List Char) : List Char :=
  let compact := List.intercalate [Char.ofNat 32] (runsBy (fun c => !isWS c) [] text)
  if compact.length ≤ 260 then compact
  else ((compact.take 257).reverse.dropWhile isWS).reverse ++ "...".data

/-- `_overlap_terms`: sorted shared tokens, first five. -/
def overlap_terms (query_tokens : List (List Char)) (text : List Char) : List (List Char) :=
  (stableSort charListLe ((tokenizeIK text).filter (fun t => query_tokens.contains t))).take 5

/-- `_build_incident_why_selected` from `retrieval/incident_knowledge.py`. -/
def build_incident_why_selected (query_tokens : List (List Char)) (c : KnowledgeChunk) :
    List Char :=
  let terms := overlap_terms query_tokens c.text
  if !terms.isEmpty then
    "lexical overlap on terms: ".data ++ List.intercalate ", ".data terms
  else if c.source_type == "policy".data then
    "selected as policy grounding evidence for incident response.".data
  else if c.source_type == "doc".data then
    "selected as runbook/reference context for incident response.".data
  else
    "selected as incident-related context.".data

/-- One element of the output list of `search_incident_knowledge`
(`score` carried as the exact square `score_sq`, see `ScoreSq`). -/
structure KnowledgeItem where
  title : List Char
  snippet : List Char
  source_type : List Char
  source_id : List Char
  score_sq : ScoreSq
  why_selected : List Char
deriving Repr, DecidableEq

/-- The output projection of `search_incident_knowledge`. -/
def mkItem (query_tokens : List (List Char)) (sc : ScoreSq × KnowledgeChunk) :
    KnowledgeItem :=
  { title := sc.snd.title, snippet := snippetL sc.snd.text,
    source_type := sc.snd.source_type, source_id := sc.snd.source_id,
    score_sq := sc.fst,
    why_selected := build_incident_why_selected query_tokens sc.snd }

/-- `search_incident_knowledge` from `retrieval/incident_knowledge.py`,
parameterized by the corpus (`_incident_corpus` loads it from disk; every
claim quantifies over corpora).  Candidates are filtered, positively
scored, sorted descending (stable), cut to `max(limit, 1)`; a non-empty
selection lacking a policy/runbook chunk swaps its last element for the
best-ranked policy/runbook candidate (when one exists among the positive
candidates); an empty selection falls back to the best policy/runbook
candidate (when one exists — the candidate pool excludes zero-overlap
chunks, so this fallback only ever sees positively scored chunks). -/
def search_incident_knowledge (query : List Char) (limit : Int)
    (service severity : Option (List Char)) (corpus : List KnowledgeChunk) :
    List KnowledgeItem :=
  let tokens := tokenizeIK query
  if tokens.isEmpty then []
  else
    let ranked :=
      stableSort (fun x y => scoreLe y.fst x.fst)
        (rankedCandidates tokens service severity corpus)
    let chosen_ranked := ranked.take (max limit 1).toNat
    let chosen_ranked :=
      if !chosen_ranked.isEmpty && !has_policy_or_runbook (chosen_ranked.map (fun sc => sc.snd))
      then
        match best_policy_or_runbook ranked with
        | some pc => chosen_ranked.dropLast ++ [(score_for_chunk ranked pc, pc)]
        | none => chosen_ranked
      else chosen_ranked
    let chosen_ranked :=
      if chosen_ranked.isEmpty then
        match best_policy_or_runbook ranked with
        | some fb => [(score_for_chunk ranked fb, fb)]
        | none => chosen_ranked
      else chosen_ranked
    (chosen_ranked.take (max limit 1).toNat).map (mkItem tokens)

end TaskChain.IncidentKnowledge

namespace TaskChain.PlanNode

/-- C3 — Planner fallback: whenever the requested mode lowers to `llm` and the
adapter attempt raises (any error `exc`), `plan.run` returns the deterministic
plan for the input, records planner telemetry with effective mode
`deterministic`, `fallback_used = true` and the raised message as the fallback
reason, and (being a total function of the oracle outcome) never propagates
the exception to its caller. -/
theorem C3_planner_fallback (requested_mode exc provider model user_input : List Char)
    (task_context : List (List Char × List Char))
    (hmode : lowerL requested_mode = "llm".data) :
    run requested_mode (.error exc) provider model user_input task_context =
      { plan_steps := build_deterministic_plan user_input task_context,
        mode := some "deterministic".data,
        planner :=
          { requested_mode := "llm".data, effective_mode := "deterministic".data,
            fallback_used := true, fallback_reason := some exc } } := by
  simp [run, hmode]

/-- Witness for C3 at a concrete fallback call. -/
theorem C3_planner_fallback_witness :
    run "LLM".data (.error "connection refused".data) "openai".data "gpt".data
        "fix the build".data [] =
      { plan_steps := build_deterministic_plan "fix the build".data [],
        mode := some "deterministic".data,
        planner :=
          { requested_mode := "llm".data, effective_mode := "deterministic".data,
            fallback_used := true, fallback_reason := some "connection refused".data } } :=
  C3_planner_fallback "LLM".data "connection refused".data "openai".data "gpt".data
    "fix the build".data [] (by decide)

/-- C4 counterexample: the claim's plan shape is wrong on two counts.  At the
incident input `"incident"` the code's deterministic plan ends with
`build_incident_brief` — there is no trailing summarize step as the claim
asserts.  And at input `"review the docs"` with context `priority = "high"`
the claim's incident signal fires (a priority context value is present), yet
the code emits only the three core steps, because the code requires the
priority value to start with `p`. -/
theorem C4_counterexample :
    (build_deterministic_plan "incident".data []).map PlanStep.tool ≠
        claimedDeterministicPlanTools "incident".data [] ∧
      claimedIncidentSignal "review the docs".data
          [("priority".data, "high".data)] = true ∧
      (build_deterministic_plan "review the docs".data
            [("priority".data, "high".data)]).map PlanStep.tool =
        ["summarize".data, "extract_entities".data, "classify_priority".data] := by
  refine ⟨by decide, by decide, by decide⟩

/-- C4 amended — Deterministic plan shape: the deterministic planner emits
`summarize, extract_entities, classify_priority` in that order and, exactly
when the input signals an incident, appends
`search_incident_knowledge, search_previous_issues, build_incident_brief`
at the end (no trailing summarize step); the incident signal is a hint
keyword in the lowered input text, or a non-empty `severity` context value,
or a `priority` context value that (lowered, stripped) starts with `p`. -/
theorem C4_deterministic_plan_shape (user_input : List Char)
    (task_context : List (List Char × List Char)) :
    (build_deterministic_plan user_input task_context).map PlanStep.tool =
        ["summarize".data, "extract_entities".data, "classify_priority".data] ++
          (if is_incident_request user_input task_context then
             ["search_incident_knowledge".data, "search_previous_issues".data,
              "build_incident_brief".data]
           else []) ∧
      is_incident_request user_input task_context =
        (INCIDENT_HINTS.any (fun hint => hasSubL (lowerL user_input) hint) ||
          (!(trimL (lowerL (ctxGet task_context "severity".data))).isEmpty ||
            startsWithL (trimL (lowerL (ctxGet task_context "priority".data))) "p".data)) := by
  constructor
  · unfold build_deterministic_plan
    split <;> simp
  · simp only [is_incident_request]
    cases h : (INCIDENT_HINTS.any fun hint => hasSubL (lowerL user_input) hint) <;> simp [h]

end TaskChain.PlanNode

namespace TaskChain.VerifyNode

/-- Helper: the consistency flag string can never come out of
`_incident_citation_quality_failures`. -/
theorem sec_flag_not_in_quality (k p : List ResultItem) :
    "summary_entity_inconsistency".data ∉ incident_citation_quality_failures k p := by
  unfold incident_citation_quality_failures
  split_ifs <;> decide

/-- Helper: the consistency flag string can never come out of
`_incident_gate_result`. -/
theorem sec_flag_not_in_incident (u : List Char) (tr : ToolResults) :
    "summary_entity_inconsistency".data ∉ (incident_gate_result u tr).failures := by
  unfold incident_gate_result
  by_cases hreq : (INCIDENT_HINTS.any fun hint => hasSubL (lowerL u) hint) = true
  · simp only [hreq, Bool.not_true, Bool.false_eq_true, if_false, List.mem_append, not_or]
    refine ⟨⟨⟨?_, ?_⟩, sec_flag_not_in_quality _ _⟩, ?_⟩ <;> split_ifs <;> decide
  · rw [Bool.not_eq_true] at hreq
    simp [hreq]

/-- C2 — Retry termination: the verifier writes
`retry_count' = retry_count + (passed ? 0 : 1)`; the conditional edge out of
Verify (which sees the merged state, hence `retry_count'`) picks `retry` iff
verification did not pass and `retry_count' < retry_budget` — in particular
the retry edge is never taken once the count has reached the budget; and with
budget 2, two consecutive failing verifications drive the count 0 → 1 → 2,
`budget_exhausted` turns true exactly at count 2, and the edge then picks
`done` although `passed` is still false. -/
theorem C2_retry_termination :
    (∀ (u : List Char) (tr : ToolResults) (rc rb : Int),
        (run u tr rc rb).retry_count =
          rc + (if (run u tr rc rb).verification.passed then 0 else 1)) ∧
      (∀ (p : Bool) (rc rb : Int),
          Workflow.should_retry p rc rb = "retry".data ↔ (p = false ∧ rc < rb)) ∧
      ((run [] [] 0 2).verification.passed = false ∧
        (run [] [] 0 2).retry_count = 1 ∧
        (run [] [] 0 2).verification.retry.budget_exhausted = false ∧
        Workflow.should_retry false 1 2 = "retry".data ∧
        (run [] [] 1 2).verification.passed = false ∧
        (run [] [] 1 2).retry_count = 2 ∧
        (run [] [] 1 2).verification.retry.budget_exhausted = true ∧
        Workflow.should_retry false 2 2 = "done".data) := by
  refine ⟨fun u tr rc rb => rfl, fun p rc rb => ?_, by decide⟩
  cases p
  · unfold Workflow.should_retry
    by_cases h : rc < rb
    · simp [h]
    · simp only [if_false, h, Bool.false_eq_true]
      exact iff_of_false (by decide) (by simp [h])
  · have hdone : Workflow.should_retry true rc rb = "done".data := rfl
    refine iff_of_false ?_ (by simp)
    rw [hdone]
    decide

end TaskChain.VerifyNode

namespace TaskChain.VerifyNode

/-- Helper: the consistency flag appears in the verifier's gate failures
exactly when `_summary_entity_consistency_issues` is non-empty. -/
theorem sec_flag_mem_gate_iff (u : List Char) (tr : ToolResults) (rc rb : Int) :
    "summary_entity_inconsistency".data ∈ (run u tr rc rb).verification.gate_failures ↔
      summary_entity_consistency_issues tr ≠ [] := by
  have hgf : (run u tr rc rb).verification.gate_failures =
      (if !(summary_entity_consistency_issues tr).isEmpty then
          ["summary_entity_inconsistency".data]
        else []) ++
        (if (incident_gate_result u tr).required && !(incident_gate_result u tr).passed then
          (incident_gate_result u tr).failures
        else []) := rfl
  by_cases hc : summary_entity_consistency_issues tr = []
  · rw [hgf]
    refine iff_of_false ?_ (by simp [hc])
    simp only [hc, List.isEmpty_nil, Bool.not_true, Bool.false_eq_true, if_false,
      List.nil_append]
    split_ifs
    · exact sec_flag_not_in_incident u tr
    · simp
  · rw [hgf]
    have hne : (summary_entity_consistency_issues tr).isEmpty = false := by
      cases h : summary_entity_consistency_issues tr
      · exact absurd h hc
      · rfl
    simp [hne, hc]

/-- C7 counterexample: with entities `["ab"]` and the non-empty summary
`"xyz"`, zero of the one entity appears in the summary — so by the claim
("flag iff not more than half appear") the consistency gate should flag —
yet the code emits no consistency issue and no gate failure, because its
actual threshold `max(1, len // 2)` tolerates a single missing entity. -/
theorem C7_counterexample :
    summary_entity_consistency_issues
        [("summarize".data, { status := "ok".data, data := { summary := "xyz".data } }),
         ("extract_entities".data,
           { status := "ok".data, data := { entities := ["ab".data] } })] = [] ∧
      "summary_entity_inconsistency".data ∉
        (run []
            [("summarize".data, { status := "ok".data, data := { summary := "xyz".data } }),
             ("extract_entities".data,
               { status := "ok".data, data := { entities := ["ab".data] } })]
            0 2).verification.gate_failures ∧
      (trimL "xyz".data).isEmpty = false ∧
      2 * ((["ab".data].filter
            (fun e => hasSubL (lowerL "xyz".data) (lowerL e))).length) ≤
        ["ab".data].length := by
  refine ⟨by decide, by decide, by decide, by decide⟩

/-- C7 amended — Consistency gate threshold: for tool results whose
`summarize` output is non-empty (after stripping) and whose
`extract_entities` list is non-empty, the verifier raises the
`summary_entity_inconsistency` gate failure iff the number of entities that
do **not** appear case-insensitively in the summary strictly exceeds
`max 1 (len(entities) // 2)` (not iff fewer than half appear, as originally
claimed); and whenever the summary strips to empty, the consistency issues
are exactly `[missing_or_empty_summary]` and the gate failure is raised. -/
theorem C7_consistency_gate (u : List Char) (tr : ToolResults) (rc rb : Int) :
    ((trimL (dataOf tr "summarize".data).summary).isEmpty = false →
        (dataOf tr "extract_entities".data).entities ≠ [] →
        ("summary_entity_inconsistency".data ∈
            (run u tr rc rb).verification.gate_failures ↔
          ((dataOf tr "extract_entities".data).entities.filter
              (fun e => !hasSubL (lowerL (dataOf tr "summarize".data).summary) (lowerL e))).length >
            max 1 ((dataOf tr "extract_entities".data).entities.length / 2))) ∧
      ((trimL (dataOf tr "summarize".data).summary).isEmpty = true →
        (run u tr rc rb).verification.consistency_issues =
            ["missing_or_empty_summary".data] ∧
          "summary_entity_inconsistency".data ∈
            (run u tr rc rb).verification.gate_failures) := by
  constructor
  · intro hsum hent
    have hentb : (dataOf tr "extract_entities".data).entities.isEmpty = false := by
      cases h : (dataOf tr "extract_entities".data).entities
      · exact absurd h hent
      · rfl
    have hiss : summary_entity_consistency_issues tr =
        (if ((dataOf tr "extract_entities".data).entities.filter
              (fun e => !hasSubL (lowerL (dataOf tr "summarize".data).summary) (lowerL e))).length >
            max 1 ((dataOf tr "extract_entities".data).entities.length / 2) then
          ["summary_missing_entities:".data ++
            List.intercalate ",".data
              (((dataOf tr "extract_entities".data).entities.filter
                (fun e => !hasSubL (lowerL (dataOf tr "summarize".data).summary) (lowerL e))).take 5)]
        else []) := by
      unfold summary_entity_consistency_issues
      simp [hsum, hentb]
    rw [sec_flag_mem_gate_iff, hiss]
    split_ifs with hcond
    · exact iff_of_true (by simp) hcond
    · exact iff_of_false (by simp) hcond
  · intro hsum
    have hiss : summary_entity_consistency_issues tr = ["missing_or_empty_summary".data] := by
      unfold summary_entity_consistency_issues
      simp [hsum]
    exact ⟨hiss, (sec_flag_mem_gate_iff u tr rc rb).mpr (by simp [hiss])⟩

/-- Witness for C7 at a concrete tool-results map: three entities, one of
which appears in the summary, so two are missing and `2 > max 1 1` flags. -/
theorem C7_consistency_gate_witness :
    (trimL "alpha only mentioned".data).isEmpty = false ∧
      "summary_entity_inconsistency".data ∈
        (run []
            [("summarize".data,
               { status := "ok".data, data := { summary := "alpha only mentioned".data } }),
             ("extract_entities".data,
               { status := "ok".data,
                 data := { entities := ["alpha".data, "beta".data, "gamma".data] } })]
            0 2).verification.gate_failures :=
  ⟨by decide,
    ((C7_consistency_gate []
          [("summarize".data,
             { status := "ok".data, data := { summary := "alpha only mentioned".data } }),
           ("extract_entities".data,
             { status := "ok".data,
               data := { entities := ["alpha".data, "beta".data, "gamma".data] } })]
          0 2).1 (by decide) (by decide)).mpr (by decide)⟩

end TaskChain.VerifyNode

namespace TaskChain.Gateway

/-- Helper: the retry loop performs between 1 and `remaining + 1` attempts
beyond the starting index. -/
theorem runAttempts_bounds (f : Nat → Except (List Char) (List Char)) :
    ∀ (remaining k : Nat),
      k + 1 ≤ (runAttempts f remaining k).2 ∧
        (runAttempts f remaining k).2 ≤ k + remaining + 1 := by
  intro remaining
  induction remaining with
  | zero =>
      intro k
      cases hf : f k with
      | ok out =>
          have h : runAttempts f 0 k = (.ok out, k + 1) := by simp [runAttempts, hf]
          rw [h]
          omega
      | error e =>
          have h : runAttempts f 0 k = (.error e, k + 1) := by simp [runAttempts, hf]
          rw [h]
          omega
  | succ r ih =>
      intro k
      cases hf : f k with
      | ok out =>
          have h : runAttempts f (r + 1) k = (.ok out, k + 1) := by simp [runAttempts, hf]
          rw [h]
          omega
      | error e =>
          have h : runAttempts f (r + 1) k = runAttempts f r (k + 1) := by
            simp [runAttempts, hf]
          rw [h]
          have := ih (k + 1)
          omega

/-- Helper: when the retry loop fails, it has used every attempt and returns
the final attempt's error verbatim. -/
theorem runAttempts_error_spec (f : Nat → Except (List Char) (List Char)) :
    ∀ (remaining k : Nat) (e : List Char),
      (runAttempts f remaining k).1 = .error e →
        (runAttempts f remaining k).2 = k + remaining + 1 ∧ f (k + remaining) = .error e := by
  intro remaining
  induction remaining with
  | zero =>
      intro k e h
      cases hf : f k with
      | ok out => simp [runAttempts, hf] at h
      | error e2 =>
          simp [runAttempts, hf] at h
          subst h
          simp [runAttempts, hf]
  | succ r ih =>
      intro k e h
      cases hf : f k with
      | ok out => simp [runAttempts, hf] at h
      | error e2 =>
          simp only [runAttempts, hf] at h ⊢
          have hrec := ih (k + 1) e h
          have harg : k + 1 + r = k + (r + 1) := by omega
          rw [harg] at hrec
          exact ⟨by omega, hrec.2⟩

/-- Helper: when every attempt raises the same error, the loop exhausts all
attempts and reports it. -/
theorem runAttempts_all_error (f : Nat → Except (List Char) (List Char)) (e : List Char)
    (hf : ∀ j, f j = .error e) :
    ∀ (remaining k : Nat), runAttempts f remaining k = (.error e, k + remaining + 1) := by
  intro remaining
  induction remaining with
  | zero => intro k; simp [runAttempts, hf k]
  | succ r ih =>
      intro k
      simp only [runAttempts, hf k]
      rw [ih (k + 1)]
      have : k + 1 + r + 1 = k + (r + 1) + 1 := by omega
      rw [this]

/-- C5 counterexample: for the unknown tool `"ghost"` with `maxRetries = 2`
the gateway reports `attempts = 3` (the full retry loop runs), not the
immediate single attempt the claim asserts. -/
theorem C5_counterexample :
    (execute (fun _ => false) (fun _ => "deterministic".data) (fun _ => .ok [])
          2 "ghost".data 0).attempts = 3 ∧
      (execute (fun _ => false) (fun _ => "deterministic".data) (fun _ => .ok [])
          2 "ghost".data 0).status = "failed".data := by
  exact ⟨rfl, rfl⟩

/-- C5 amended — Unknown-tool failure: for every tool name not present in the
registry and any attempt oracle, the gateway returns a failed record whose
error is `Unknown tool: <name>` and whose `attempts` equals
`maxRetries + 1` — the unknown-name failure goes through the full retry loop
(it is not the immediate no-retry failure the original claim describes), and
the tool function is never consulted (the outcome is independent of the
oracle). -/
theorem C5_unknown_tool (registered : List Char → Bool)
    (implementation_of : List Char → List Char)
    (once : Nat → Except (List Char) (List Char)) (max_retries : Nat)
    (tool_name : List Char) (dur : ℚ) (h : registered tool_name = false) :
    execute registered implementation_of once max_retries tool_name dur =
      { tool := tool_name, status := "failed".data,
        error := "Unknown tool: ".data ++ tool_name,
        implementation := "unknown".data, attempts := max_retries + 1,
        duration_ms := dur } := by
  have hf : ∀ j, attemptOutcome registered once tool_name j =
      .error ("Unknown tool: ".data ++ tool_name) := by
    intro j
    simp [attemptOutcome, h]
  unfold execute
  rw [runAttempts_all_error _ _ hf max_retries 0]
  simp [h]

/-- Witness for C5 at a concrete unknown tool and `maxRetries = 1`. -/
theorem C5_unknown_tool_witness :
    execute (fun _ => false) (fun _ => "deterministic".data)
        (fun _ => .error "boom".data) 1 "nope".data 7 =
      { tool := "nope".data, status := "failed".data,
        error := "Unknown tool: ".data ++ "nope".data,
        implementation := "unknown".data, attempts := 2, duration_ms := 7 } :=
  C5_unknown_tool (fun _ => false) (fun _ => "deterministic".data)
    (fun _ => .error "boom".data) 1 "nope".data 7 rfl

/-- C10 — Gateway totality: for every registry predicate, implementation
tag map, attempt oracle, `maxRetries ≥ 0` and tool name, `execute` returns a
record (it is a total function of its oracles — argument-validation errors,
tool exceptions, output-validation errors and timeouts all enter through the
oracle's `.error` case and are converted, never propagated) whose status is
`ok` or `failed`, whose attempts lie in `[1, maxRetries + 1]`, and on the
failed path the attempts equal `maxRetries + 1` with the error equal to the
string of the last attempt's exception. -/
theorem C10_gateway_totality (registered : List Char → Bool)
    (implementation_of : List Char → List Char)
    (once : Nat → Except (List Char) (List Char)) (max_retries : Nat)
    (tool_name : List Char) (dur : ℚ) :
    ((execute registered implementation_of once max_retries tool_name dur).status =
        "ok".data ∨
      (execute registered implementation_of once max_retries tool_name dur).status =
        "failed".data) ∧
      1 ≤ (execute registered implementation_of once max_retries tool_name dur).attempts ∧
      (execute registered implementation_of once max_retries tool_name dur).attempts ≤
        max_retries + 1 ∧
      ((execute registered implementation_of once max_retries tool_name dur).status =
          "failed".data →
        (execute registered implementation_of once max_retries tool_name dur).attempts =
            max_retries + 1 ∧
          attemptOutcome registered once tool_name max_retries =
            .error (execute registered implementation_of once max_retries tool_name dur).error) := by
  have hb := runAttempts_bounds (attemptOutcome registered once tool_name) max_retries 0
  cases hr : runAttempts (attemptOutcome registered once tool_name) max_retries 0 with
  | mk r1 r2 =>
    rw [hr] at hb
    cases r1 with
    | ok out =>
        simp only [execute, hr]
        refine ⟨Or.inl (by simp), by omega, by omega, ?_⟩
        intro hcon
        exact absurd hcon (by decide)
    | error e =>
        have he := runAttempts_error_spec (attemptOutcome registered once tool_name)
          max_retries 0 e (by rw [hr])
        rw [hr] at he
        simp only [execute, hr]
        refine ⟨Or.inr (by simp), by omega, by omega, fun _ => ⟨by omega, ?_⟩⟩
        have := he.2
        simpa using this

/-- Witness for C10 at a concrete always-failing registered tool. -/
theorem C10_gateway_totality_witness :
    ((execute (fun _ => true) (fun _ => "deterministic".data)
          (fun _ => .error "timed out".data) 2 "summarize".data 1).status = "ok".data ∨
      (execute (fun _ => true) (fun _ => "deterministic".data)
          (fun _ => .error "timed out".data) 2 "summarize".data 1).status = "failed".data) ∧
      1 ≤ (execute (fun _ => true) (fun _ => "deterministic".data)
          (fun _ => .error "timed out".data) 2 "summarize".data 1).attempts ∧
      (execute (fun _ => true) (fun _ => "deterministic".data)
          (fun _ => .error "timed out".data) 2 "summarize".data 1).attempts ≤ 2 + 1 ∧
      ((execute (fun _ => true) (fun _ => "deterministic".data)
          (fun _ => .error "timed out".data) 2 "summarize".data 1).status = "failed".data →
        (execute (fun _ => true) (fun _ => "deterministic".data)
            (fun _ => .error "timed out".data) 2 "summarize".data 1).attempts = 2 + 1 ∧
          attemptOutcome (fun _ => true) (fun _ => .error "timed out".data)
              "summarize".data 2 =
            .error (execute (fun _ => true) (fun _ => "deterministic".data)
                (fun _ => .error "timed out".data) 2 "summarize".data 1).error) :=
  C10_gateway_totality (fun _ => true) (fun _ => "deterministic".data)
    (fun _ => .error "timed out".data) 2 "summarize".data 1

end TaskChain.Gateway

namespace TaskChain.ExecuteNode

/-- Helper: replacing the value at key `k` leaves `find?` for a different
key `k'` unchanged. -/
theorem find?_replace_ne (m : ToolMap) (k k' : List Char) (v : ToolEntry)
    (h : (k == k') = false) :
    (m.map (fun kv => if kv.fst == k then (k, v) else kv)).find?
        (fun kv => kv.fst == k') =
      m.find? (fun kv => kv.fst == k') := by
  induction m with
  | nil => rfl
  | cons a rest ih =>
      simp only [List.map_cons]
      by_cases ha : (a.fst == k) = true
      · have haeq : a.fst = k := eq_of_beq ha
        rw [if_pos ha]
        rw [List.find?_cons_of_neg (p := fun (kv : List Char × ToolEntry) => kv.fst == k') _ (by simp [h]),
          List.find?_cons_of_neg (p := fun (kv : List Char × ToolEntry) => kv.fst == k') _ (by simp [haeq, h])]
        exact ih
      · rw [if_neg ha]
        cases hk' : (a.fst == k') with
        | true =>
            rw [List.find?_cons_of_pos (p := fun (kv : List Char × ToolEntry) => kv.fst == k') _ hk',
              List.find?_cons_of_pos (p := fun (kv : List Char × ToolEntry) => kv.fst == k') _ hk']
        | false =>
            rw [List.find?_cons_of_neg (p := fun (kv : List Char × ToolEntry) => kv.fst == k') _ (by simp [hk']),
              List.find?_cons_of_neg (p := fun (kv : List Char × ToolEntry) => kv.fst == k') _ (by simp [hk'])]
            exact ih

/-- Helper: appending a pair keyed `k` leaves `find?` for a different key
`k'` unchanged. -/
theorem find?_append_single_ne (m : ToolMap) (k k' : List Char) (v : ToolEntry)
    (h : (k == k') = false) :
    (m ++ [(k, v)]).find? (fun kv => kv.fst == k') =
      m.find? (fun kv => kv.fst == k') := by
  induction m with
  | nil => simp [List.find?, h]
  | cons a rest ih =>
      simp only [List.cons_append]
      cases hk' : (a.fst == k') with
      | true =>
          rw [List.find?_cons_of_pos (p := fun (kv : List Char × ToolEntry) => kv.fst == k') _ hk',
            List.find?_cons_of_pos (p := fun (kv : List Char × ToolEntry) => kv.fst == k') _ hk']
      | false =>
          rw [List.find?_cons_of_neg (p := fun (kv : List Char × ToolEntry) => kv.fst == k') _ (by simp [hk']),
            List.find?_cons_of_neg (p := fun (kv : List Char × ToolEntry) => kv.fst == k') _ (by simp [hk'])]
          exact ih

/-- Helper: `tool_results[k] = v` does not change the entry looked up at a
different key. -/
theorem lookupTool_setTool_ne (m : ToolMap) (k k' : List Char) (v : ToolEntry)
    (h : ¬ k' = k) :
    lookupTool (setTool m k v) k' = lookupTool m k' := by
  have hb : (k == k') = false := by
    cases hkk : (k == k') with
    | false => rfl
    | true => exact absurd (eq_of_beq hkk).symm h
  unfold lookupTool setTool
  split_ifs with hex
  · rw [find?_replace_ne m k k' v hb]
  · rw [find?_append_single_ne m k k' v hb]

/-- Helper: the execute loop never touches a tool whose stored result is
already `ok`: that entry survives unchanged and no new event names it. -/
theorem executeSteps_preserves_ok (executor : List Char → List Char → Gateway.ExecOutcome)
    (resolve_args : List Char → Option (List Char) → ToolMap → List Char)
    (iteration : Int) :
    ∀ (steps : List ExecStep) (tr : ToolMap) (evs : List ToolEvent)
      (t : List Char) (e : ToolEntry),
      lookupTool tr t = some e → e.status = "ok".data →
      lookupTool (executeSteps executor resolve_args iteration steps tr evs).1 t = some e ∧
        ∀ ev ∈ (executeSteps executor resolve_args iteration steps tr evs).2,
          ev ∈ evs ∨ ev.tool ≠ t := by
  intro steps
  induction steps with
  | nil =>
      intro tr evs t e hok hst
      exact ⟨hok, fun ev hev => Or.inl hev⟩
  | cons step rest ih =>
      intro tr evs t e hok hst
      cases hempty : step.tool.isEmpty with
      | true =>
          have hred : executeSteps executor resolve_args iteration (step :: rest) tr evs =
              executeSteps executor resolve_args iteration rest tr evs := by
            simp [executeSteps, hempty]
          rw [hred]
          exact ih tr evs t e hok hst
      | false =>
          cases hskip : shouldSkip tr step.tool with
          | true =>
              have hred : executeSteps executor resolve_args iteration (step :: rest) tr evs =
                  executeSteps executor resolve_args iteration rest tr evs := by
                simp [executeSteps, hempty, hskip]
              rw [hred]
              exact ih tr evs t e hok hst
          | false =>
              have hne : ¬ step.tool = t := by
                intro hteq
                have hskips : shouldSkip tr t = true := by
                  unfold shouldSkip
                  rw [hok]
                  simp [hst]
                rw [hteq, hskips] at hskip
                exact absurd hskip (by decide)
              have hred : executeSteps executor resolve_args iteration (step :: rest) tr evs =
                  executeSteps executor resolve_args iteration rest
                    (setTool tr step.tool
                      (buildEntry
                        (executor step.tool (resolve_args step.tool step.args tr))))
                    (evs ++
                      [buildEvent iteration step.tool
                        (executor step.tool (resolve_args step.tool step.args tr))]) := by
                simp [executeSteps, hempty, hskip]
              rw [hred]
              have hok' : lookupTool
                  (setTool tr step.tool
                    (buildEntry (executor step.tool (resolve_args step.tool step.args tr))))
                  t = some e := by
                rw [lookupTool_setTool_ne tr step.tool t _ (fun hh => hne hh.symm)]
                exact hok
              obtain ⟨h1, h2⟩ := ih _ _ t e hok' hst
              refine ⟨h1, fun ev' hev' => ?_⟩
              rcases h2 ev' hev' with hin | hnt
              · rcases List.mem_append.mp hin with hin1 | hin2
                · exact Or.inl hin1
                · have hev'eq : ev'.tool = step.tool := by
                    have hx := List.mem_singleton.mp hin2
                    rw [hx]
                    rfl
                  exact Or.inr (by rw [hev'eq]; exact fun hh => hne hh)
              · exact Or.inr hnt

/-- C1 — Idempotent retry: for every state in which `toolResults[t]` exists
with status `ok`, re-running the Execute stage leaves that entry — all of it,
including `attempts` and `duration_ms` — unchanged, and appends no
tool-execution event for `t` (events are appended exactly when a tool is
invoked, so `t` is never re-invoked); only tools whose result is missing or
failed can be re-attempted. -/
theorem C1_idempotent_retry (executor : List Char → List Char → Gateway.ExecOutcome)
    (resolve_args : List Char → Option (List Char) → ToolMap → List Char)
    (iteration : Int) (plan_steps : List ExecStep) (tool_results : ToolMap)
    (history : List ToolEvent) (t : List Char) (e : ToolEntry)
    (hok : lookupTool tool_results t = some e) (hst : e.status = "ok".data) :
    lookupTool
        (run executor resolve_args iteration plan_steps tool_results history).tool_results
        t = some e ∧
      ∀ ev ∈ (run executor resolve_args iteration plan_steps tool_results history).events,
        ev ∈ history ∨ ev.tool ≠ t := by
  unfold run
  exact executeSteps_preserves_ok executor resolve_args iteration plan_steps
    tool_results history t e hok hst

/-- Witness for C1: one plan step for `summarize`, whose stored result is
already `ok` with `attempts = 2`, `duration_ms = 5`; the entry survives
verbatim and no event mentions `summarize`. -/
theorem C1_idempotent_retry_witness :
    lookupTool
        (run (fun n _ => { tool := n, status := "ok".data, implementation := "deterministic".data,
                           attempts := 1, duration_ms := 0 })
          (fun _ _ _ => []) 1
          [{ id := "analyze_request".data, tool := "summarize".data }]
          [("summarize".data,
            { status := "ok".data, data := "old-summary".data,
              implementation := "deterministic".data, attempts := 2, duration_ms := 5 })]
          []).tool_results
        "summarize".data =
      some
        { status := "ok".data, data := "old-summary".data,
          implementation := "deterministic".data, attempts := 2, duration_ms := 5 } ∧
      ∀ ev ∈ (run (fun n _ => { tool := n, status := "ok".data,
                                implementation := "deterministic".data,
                                attempts := 1, duration_ms := 0 })
          (fun _ _ _ => []) 1
          [{ id := "analyze_request".data, tool := "summarize".data }]
          [("summarize".data,
            { status := "ok".data, data := "old-summary".data,
              implementation := "deterministic".data, attempts := 2, duration_ms := 5 })]
          []).events,
        ev ∈ ([] : List ToolEvent) ∨ ev.tool ≠ "summarize".data :=
  C1_idempotent_retry
    (fun n _ => { tool := n, status := "ok".data, implementation := "deterministic".data,
                  attempts := 1, duration_ms := 0 })
    (fun _ _ _ => []) 1
    [{ id := "analyze_request".data, tool := "summarize".data }]
    [("summarize".data,
      { status := "ok".data, data := "old-summary".data,
        implementation := "deterministic".data, attempts := 2, duration_ms := 5 })]
    [] "summarize".data
    { status := "ok".data, data := "old-summary".data,
      implementation := "deterministic".data, attempts := 2, duration_ms := 5 }
    (by decide) (by decide)

end TaskChain.ExecuteNode

namespace TaskChain.PreviousIssues

/-- Helper: rounding never goes below the floor. -/
theorem floor_le_rhe (q : ℚ) : ⌊q⌋ ≤ roundHalfEven q := by
  simp only [roundHalfEven]
  split_ifs <;> omega

/-- Helper: rounding never exceeds the floor plus one. -/
theorem rhe_le_floor_add_one (q : ℚ) : roundHalfEven q ≤ ⌊q⌋ + 1 := by
  simp only [roundHalfEven]
  split_ifs <;> omega

/-- Helper: round-half-to-even is monotone. -/
theorem rhe_mono {p q : ℚ} (h : p ≤ q) : roundHalfEven p ≤ roundHalfEven q := by
  rcases lt_or_eq_of_le (Int.floor_mono h) with hf | hf
  · calc roundHalfEven p ≤ ⌊p⌋ + 1 := rhe_le_floor_add_one p
      _ ≤ ⌊q⌋ := by omega
      _ ≤ roundHalfEven q := floor_le_rhe q
  · have hr : p - (⌊p⌋ : ℚ) ≤ q - (⌊p⌋ : ℚ) := by linarith
    simp only [roundHalfEven, ← hf]
    split_ifs <;> first | omega | linarith

/-- Helper: rounding a nonnegative rational is nonnegative. -/
theorem rhe_nonneg {q : ℚ} (h : 0 ≤ q) : 0 ≤ roundHalfEven q := by
  have h1 := floor_le_rhe q
  have h2 : 0 ≤ ⌊q⌋ := Int.floor_nonneg.mpr h
  omega

/-- Helper: rounding stays below any integer upper bound. -/
theorem rhe_le_of_le {q : ℚ} {n : ℤ} (h : q ≤ (n : ℚ)) : roundHalfEven q ≤ n := by
  have hfl : ⌊q⌋ ≤ n := by
    have := Int.floor_mono h
    simpa using this
  rcases lt_or_eq_of_le hfl with hlt | heq
  · have := rhe_le_floor_add_one q
    omega
  · have hq : q = (n : ℚ) := by
      have h1 : (n : ℚ) ≤ q := by
        rw [← heq]
        exact Int.floor_le q
      linarith
    subst hq
    have h0 : ⌊(n : ℚ)⌋ = n := Int.floor_intCast n
    simp only [roundHalfEven, h0]
    have hcond : (n : ℚ) - (n : ℚ) < 1 / 2 := by norm_num
    rw [if_pos hcond]

/-- C8 counterexample: the raw score `100000` is nonnegative, yet the
returned relevance is exactly `0` — `round(1/100001, 4) = 0.0` — so the
claimed half-open range `(0, 1]` is violated (the rounding step makes small
relevances collapse to zero). -/
theorem C8_counterexample : (0 : ℚ) ≤ 100000 ∧ bm25_to_relevance 100000 = 0 := by
  constructor
  · norm_num
  · have hmax : max (100000 : ℚ) 0 = 100000 := by norm_num
    have hval : (1 : ℚ) / (1 + 100000) * 10000 = 10000 / 100001 := by norm_num
    have hfl : ⌊(10000 : ℚ) / 100001⌋ = 0 := by
      rw [Int.floor_eq_zero_iff, Set.mem_Ico]
      constructor
      · positivity
      · norm_num
    simp only [bm25_to_relevance, round4, roundHalfEven]
    rw [hmax, hval, hfl]
    norm_num

/-- C8 amended — Relevance normalization: the previous-issue search converts
a raw lower-is-better score `x` to `round(1 / (1 + max(x, 0)), 4)`; for all
raw scores `0 ≤ a < b` the relevance is antitone
(`relevance(a) ≥ relevance(b)`), and for every `x ≥ 0` the returned
relevance lies in the **closed** interval `[0, 1]` — the 4-decimal rounding
can return exactly `0` for large raw scores, so the claimed strict lower
bound does not hold. -/
theorem C8_relevance_normalization :
    (∀ a b : ℚ, 0 ≤ a → a < b → bm25_to_relevance b ≤ bm25_to_relevance a) ∧
      (∀ x : ℚ, 0 ≤ x → 0 ≤ bm25_to_relevance x ∧ bm25_to_relevance x ≤ 1) := by
  have hmain : ∀ x : ℚ, 0 ≤ x → bm25_to_relevance x = round4 (1 / (1 + x)) := by
    intro x hx
    rw [bm25_to_relevance, max_eq_left hx]
  constructor
  · intro a b ha hab
    have hb : 0 ≤ b := le_trans ha (le_of_lt hab)
    rw [hmain a ha, hmain b hb]
    unfold round4
    have h1 : (1 : ℚ) / (1 + b) ≤ 1 / (1 + a) :=
      one_div_le_one_div_of_le (by linarith) (by linarith)
    have h2 : (1 : ℚ) / (1 + b) * 10000 ≤ 1 / (1 + a) * 10000 := by linarith
    have h3 := rhe_mono h2
    have h4 : ((roundHalfEven (1 / (1 + b) * 10000)) : ℚ) ≤
        ((roundHalfEven (1 / (1 + a) * 10000)) : ℚ) := by exact_mod_cast h3
    linarith
  · intro x hx
    rw [hmain x hx]
    have hpos : (0 : ℚ) < 1 + x := by linarith
    have hy1 : (0 : ℚ) < 1 / (1 + x) := by positivity
    have hy2 : (1 : ℚ) / (1 + x) ≤ 1 := by
      rw [div_le_one hpos]
      linarith
    unfold round4
    constructor
    · have h0 : 0 ≤ roundHalfEven (1 / (1 + x) * 10000) := rhe_nonneg (by positivity)
      have h0q : (0 : ℚ) ≤ ((roundHalfEven (1 / (1 + x) * 10000)) : ℚ) := by exact_mod_cast h0
      positivity
    · have hle : (1 : ℚ) / (1 + x) * 10000 ≤ ((10000 : ℤ) : ℚ) := by
        push_cast
        linarith
      have h1 := rhe_le_of_le hle
      rw [div_le_one (by norm_num)]
      exact_mod_cast h1

/-- Witness for C8 at concrete scores `a = 1 < b = 3` and `x = 3`. -/
theorem C8_relevance_normalization_witness :
    bm25_to_relevance 3 ≤ bm25_to_relevance 1 ∧
      0 ≤ bm25_to_relevance 3 ∧ bm25_to_relevance 3 ≤ 1 :=
  ⟨C8_relevance_normalization.1 1 3 (by norm_num) (by norm_num),
    C8_relevance_normalization.2 3 (by norm_num)⟩

end TaskChain.PreviousIssues

namespace TaskChain.PreviousIssues

/-- Helper: deduplication outputs a subsequence of its input (it only drops
elements, preserving order — "keep first occurrence"). -/
theorem dedupeGo_sublist : ∀ (hits : List PreviousIssueHit) (seen : List (List Char)),
    List.Sublist (dedupeGo seen hits) hits := by
  intro hits
  induction hits with
  | nil => intro seen; simp [dedupeGo]
  | cons hd rest ih =>
      intro seen
      cases hc : seen.contains (dedupeKey hd) with
      | true =>
          simp only [dedupeGo, hc, if_true]
          exact (ih seen).trans (List.sublist_cons_self hd rest)
      | false =>
          simp only [dedupeGo, hc, Bool.false_eq_true, if_false]
          exact List.Sublist.cons₂ hd (ih (dedupeKey hd :: seen))

/-- Helper: every element surviving deduplication has a key outside the
`seen` set the loop started with. -/
theorem dedupeGo_key_not_seen :
    ∀ (hits : List PreviousIssueHit) (seen : List (List Char)) (h : PreviousIssueHit),
      h ∈ dedupeGo seen hits → seen.contains (dedupeKey h) = false := by
  intro hits
  induction hits with
  | nil => intro seen h hmem; simp [dedupeGo] at hmem
  | cons hd rest ih =>
      intro seen h hmem
      cases hc : seen.contains (dedupeKey hd) with
      | true =>
          rw [dedupeGo, hc, if_pos rfl] at hmem
          exact ih seen h hmem
      | false =>
          rw [dedupeGo, hc] at hmem
          simp only [Bool.false_eq_true, if_false, List.mem_cons] at hmem
          rcases hmem with heq | hmem
          · rw [heq]
            exact hc
          · have := ih (dedupeKey hd :: seen) h hmem
            cases hx : seen.contains (dedupeKey h) with
            | true =>
                exfalso
                have hcons : (dedupeKey hd :: seen).contains (dedupeKey h) = true := by
                  simp only [List.contains_cons, hx, Bool.or_true]
                rw [hcons] at this
                exact absurd this (by decide)
            | false => rfl

/-- Helper: the deduplicated list has pairwise distinct keys. -/
theorem dedupeGo_pairwise :
    ∀ (hits : List PreviousIssueHit) (seen : List (List Char)),
      List.Pairwise (fun a b => dedupeKey a ≠ dedupeKey b) (dedupeGo seen hits) := by
  intro hits
  induction hits with
  | nil => intro seen; simp [dedupeGo]
  | cons hd rest ih =>
      intro seen
      cases hc : seen.contains (dedupeKey hd) with
      | true =>
          simp only [dedupeGo, hc, if_true]
          exact ih seen
      | false =>
          simp only [dedupeGo, hc, Bool.false_eq_true, if_false]
          refine List.Pairwise.cons ?_ (ih (dedupeKey hd :: seen))
          intro b hb heq
          have hns := dedupeGo_key_not_seen rest (dedupeKey hd :: seen) b hb
          rw [← heq] at hns
          simp [List.contains_cons] at hns

/-- Helper: every input key is represented in the deduplicated output. -/
theorem dedupeGo_covers :
    ∀ (hits : List PreviousIssueHit) (seen : List (List Char)) (h : PreviousIssueHit),
      h ∈ hits → seen.contains (dedupeKey h) = false →
      ∃ h', h' ∈ dedupeGo seen hits ∧ dedupeKey h' = dedupeKey h := by
  intro hits
  induction hits with
  | nil => intro seen h hmem; simp at hmem
  | cons hd rest ih =>
      intro seen h hmem hns
      rcases List.mem_cons.mp hmem with heq | hmem
      · subst heq
        rw [dedupeGo, hns]
        simp only [Bool.false_eq_true, if_false]
        exact ⟨h, List.mem_cons_self h _, rfl⟩
      · cases hc : seen.contains (dedupeKey hd) with
        | true =>
            rw [dedupeGo, hc, if_pos rfl]
            exact ih seen h hmem hns
        | false =>
            rw [dedupeGo, hc]
            simp only [Bool.false_eq_true, if_false]
            by_cases hkey : dedupeKey h = dedupeKey hd
            · exact ⟨hd, List.mem_cons_self hd _, hkey.symm⟩
            · have hns' : (dedupeKey hd :: seen).contains (dedupeKey h) = false := by
                simp only [List.contains_cons, hns, Bool.or_false]
                simp only [beq_eq_false_iff_ne, ne_eq]
                exact fun hcontra => hkey hcontra
              obtain ⟨h', hh1, hh2⟩ := ih (dedupeKey hd :: seen) h hmem hns'
              exact ⟨h', List.mem_cons_of_mem hd hh1, hh2⟩

/-- C9 counterexample: two hits with empty tickets but distinct doc ids.
The code's dedup keys only on the stripped uppercased ticket, so both hits
collapse onto the key `""` and the second one is dropped; under the claim's
keying (doc-id fallback) both would be kept. -/
theorem C9_counterexample :
    search_previous_issues
        [{ ticket := [], summary := "a".data, relevance := 0, doc_id := "d1".data },
         { ticket := [], summary := "b".data, relevance := 0, doc_id := "d2".data }]
        [] 5 false false "q".data =
      [{ ticket := [], summary := "a".data, relevance := 0, doc_id := "d1".data }] ∧
      claimedDedupeGo []
        [{ ticket := [], summary := "a".data, relevance := 0, doc_id := "d1".data },
         { ticket := [], summary := "b".data, relevance := 0, doc_id := "d2".data }] =
      [{ ticket := [], summary := "a".data, relevance := 0, doc_id := "d1".data },
       { ticket := [], summary := "b".data, relevance := 0, doc_id := "d2".data }] := by
  exact ⟨by decide, by decide⟩

/-- C9 amended — Previous-issue deduplication: for every previous-issue
search result, no two returned hits share the same stripped-uppercased
ticket; deduplication keys on the stripped uppercased ticket **only** (hits
whose ticket is empty all share the key `""` — there is no doc-id
fallback), keeps the first occurrence in post-fusion order (the output is an
order-preserving subsequence that retains one representative per key), and
the result is truncated to `max(limit, 1)` entries. -/
theorem C9_dedupe (lexical_hits vector_hits : List PreviousIssueHit) (limit : Int)
    (use_llm_rerank use_hybrid : Bool) (query : List Char) :
    List.Pairwise (fun a b => dedupeKey a ≠ dedupeKey b)
        (search_previous_issues lexical_hits vector_hits limit use_llm_rerank use_hybrid
          query) ∧
      (search_previous_issues lexical_hits vector_hits limit use_llm_rerank use_hybrid
          query).length ≤ (max limit 1).toNat ∧
      (∀ hits : List PreviousIssueHit, List.Sublist (dedupe_hits hits) hits) ∧
      (∀ (hits : List PreviousIssueHit) (h : PreviousIssueHit), h ∈ hits →
        ∃ h', h' ∈ dedupe_hits hits ∧ dedupeKey h' = dedupeKey h) := by
  refine ⟨?_, ?_, ?_, ?_⟩
  · exact List.Pairwise.sublist (List.take_sublist _ _) (dedupeGo_pairwise _ [])
  · exact List.length_take_le _ _
  · intro hits
    exact dedupeGo_sublist hits []
  · intro hits h hmem
    exact dedupeGo_covers hits [] h hmem rfl

/-- Witness for C9 at a concrete call. -/
theorem C9_dedupe_witness :
    List.Pairwise (fun a b => dedupeKey a ≠ dedupeKey b)
        (search_previous_issues
          [{ ticket := "wlc-43".data, summary := "s".data, relevance := 0 },
           { ticket := " WLC-43".data, summary := "t".data, relevance := 0 }]
          [] 3 false false "q".data) ∧
      (search_previous_issues
          [{ ticket := "wlc-43".data, summary := "s".data, relevance := 0 },
           { ticket := " WLC-43".data, summary := "t".data, relevance := 0 }]
          [] 3 false false "q".data).length ≤ (max (3 : Int) 1).toNat ∧
      (∀ hits : List PreviousIssueHit, List.Sublist (dedupe_hits hits) hits) ∧
      (∀ (hits : List PreviousIssueHit) (h : PreviousIssueHit), h ∈ hits →
        ∃ h', h' ∈ dedupe_hits hits ∧ dedupeKey h' = dedupeKey h) :=
  C9_dedupe
    [{ ticket := "wlc-43".data, summary := "s".data, relevance := 0 },
     { ticket := " WLC-43".data, summary := "t".data, relevance := 0 }]
    [] 3 false false "q".data

end TaskChain.PreviousIssues

namespace TaskChain

/-- Helper: stable insertion only adds the inserted element. -/
theorem mem_sInsert (le : α → α → Bool) (a x : α) :
    ∀ l : List α, x ∈ sInsert le a l ↔ x = a ∨ x ∈ l := by
  intro l
  induction l with
  | nil => simp [sInsert]
  | cons b bs ih =>
      cases hc : (le b a && !le a b) with
      | true =>
          simp only [sInsert, hc, if_true, List.mem_cons, ih]
          tauto
      | false =>
          simp only [sInsert, hc, Bool.false_eq_true, if_false, List.mem_cons]

/-- Helper: the stable sort is a permutation membership-wise. -/
theorem mem_stableSort (le : α → α → Bool) (x : α) :
    ∀ l : List α, x ∈ stableSort le l ↔ x ∈ l := by
  intro l
  induction l with
  | nil => simp [stableSort]
  | cons b bs ih =>
      simp only [stableSort, mem_sInsert, List.mem_cons, ih]

end TaskChain

namespace TaskChain.IncidentKnowledge

/-- C6 counterexample: a two-chunk corpus holding a policy chunk and a
ticket chunk, queried with terms that overlap only the ticket.  Chunks
exist, yet the returned result is the single ticket hit with no policy- or
runbook-tagged entry: zero-overlap chunks never enter the candidate pool,
so the swap has no policy candidate to reach for. -/
theorem C6_counterexample :
    (search_incident_knowledge "alpha beta".data 3 none none
          [{ title := "Policy: Refund Handling".data,
             text := "refund handling policy".data,
             source_type := "policy".data, source_id := "p1".data },
           { title := "Ticket T-1: db down".data, text := "alpha beta".data,
             source_type := "jira_ticket".data, source_id := "T-1".data }]).all
        (fun item => !(hasSubL (lowerL item.title) "policy".data ||
          hasSubL (lowerL item.title) "runbook".data)) = true ∧
      search_incident_knowledge "alpha beta".data 3 none none
          [{ title := "Policy: Refund Handling".data,
             text := "refund handling policy".data,
             source_type := "policy".data, source_id := "p1".data },
           { title := "Ticket T-1: db down".data, text := "alpha beta".data,
             source_type := "jira_ticket".data, source_id := "T-1".data }] ≠ [] := by
  exact ⟨by decide, by decide⟩

/-- C6 amended — Policy/runbook guarantee of incident knowledge search: the
guarantee holds on the candidate pool the code actually ranks.  For every
query, limit, filters and corpus, whenever some policy- or runbook-titled
chunk passes the metadata filters **and has strictly positive lexical
overlap with the query**, the result contains at least one policy- or
runbook-titled item: if the top-limit selection lacks one, its last element
is swapped for the best-ranked policy/runbook candidate.  (Chunks with zero
overlap are excluded before ranking, so the original claim's unconditional
guarantee — and its empty-result fallback "regardless of score" — do not
hold: the fallback can only ever return positively scored chunks.) -/
theorem C6_policy_guarantee (query : List Char) (limit : Int)
    (service severity : Option (List Char)) (corpus : List KnowledgeChunk)
    (c : KnowledgeChunk) (hcmem : c ∈ corpus)
    (hcf : passes_filters service severity c = true)
    (hcp : isPolicyOrRunbook c = true)
    (hcs : scorePos (lexical_overlap_sq (tokenizeIK query) c.text) = true) :
    ∃ item ∈ search_incident_knowledge query limit service severity corpus,
      (hasSubL (lowerL item.title) "policy".data ||
        hasSubL (lowerL item.title) "runbook".data) = true := by
  have htokne : (tokenizeIK query).isEmpty = false := by
    cases hq : tokenizeIK query with
    | nil =>
        exfalso
        have hzero : lexical_overlap_sq [] c.text = ⟨0, 1⟩ := by
          unfold lexical_overlap_sq
          dsimp only
          split_ifs with h1 h2
          · rfl
          · rfl
          · exfalso
            simp at h2
        rw [hq, hzero] at hcs
        exact absurd hcs (by decide)
    | cons t ts => rfl
  have hpair : (lexical_overlap_sq (tokenizeIK query) c.text, c) ∈
      rankedCandidates (tokenizeIK query) service severity corpus := by
    unfold rankedCandidates
    apply List.mem_filterMap.mpr
    refine ⟨c, List.mem_filter.mpr ⟨hcmem, hcf⟩, ?_⟩
    simp only [hcs, if_true]
  have hmemranked : (lexical_overlap_sq (tokenizeIK query) c.text, c) ∈
      stableSort (fun x y => scoreLe y.fst x.fst)
        (rankedCandidates (tokenizeIK query) service severity corpus) :=
    (mem_stableSort _ _ _).mpr hpair
  set ranked := stableSort (fun x y => scoreLe y.fst x.fst)
    (rankedCandidates (tokenizeIK query) service severity corpus) with hranked
  set n := (max limit 1).toNat with hn
  have hn1 : 1 ≤ n := by
    have h1 : (1 : Int) ≤ max limit 1 := le_max_right limit 1
    omega
  have hrne : ranked ≠ [] := by
    intro h
    rw [h] at hmemranked
    simp at hmemranked
  have htakene : ranked.take n ≠ [] := by
    intro h
    rcases List.take_eq_nil_iff.mp h with h0 | hl
    · omega
    · exact hrne hl
  have htake_isEmpty : (ranked.take n).isEmpty = false := by
    cases hx : ranked.take n with
    | nil => exact absurd hx htakene
    | cons a l => rfl
  -- the policy finder succeeds on the ranked pool
  obtain ⟨pr, hprfind, hprp⟩ :
      ∃ pr, ranked.find? (fun sc => isPolicyOrRunbook sc.snd) = some pr ∧
        isPolicyOrRunbook pr.snd = true := by
    have hsome : (ranked.find? (fun sc => isPolicyOrRunbook sc.snd)).isSome := by
      rw [List.find?_isSome]
      exact ⟨_, hmemranked, hcp⟩
    cases hfq : ranked.find? (fun sc => isPolicyOrRunbook sc.snd) with
    | none => rw [hfq] at hsome; simp at hsome
    | some pr =>
        refine ⟨pr, rfl, ?_⟩
        have hp := List.find?_some
          (p := fun (sc : ScoreSq × KnowledgeChunk) => isPolicyOrRunbook sc.snd) hfq
        exact hp
  have hbest : best_policy_or_runbook ranked = some pr.snd := by
    unfold best_policy_or_runbook
    rw [hprfind]
    rfl
  have hout : search_incident_knowledge query limit service severity corpus =
      (let chosen_ranked := ranked.take n
       let chosen_ranked :=
         if !chosen_ranked.isEmpty &&
             !has_policy_or_runbook (chosen_ranked.map (fun sc => sc.snd)) then
           match best_policy_or_runbook ranked with
           | some pc => chosen_ranked.dropLast ++ [(score_for_chunk ranked pc, pc)]
           | none => chosen_ranked
         else chosen_ranked
       let chosen_ranked :=
         if chosen_ranked.isEmpty then
           match best_policy_or_runbook ranked with
           | some fb => [(score_for_chunk ranked fb, fb)]
           | none => chosen_ranked
         else chosen_ranked
       (chosen_ranked.take n).map (mkItem (tokenizeIK query))) := by
    unfold search_incident_knowledge
    dsimp only
    rw [htokne]
    simp only [Bool.false_eq_true, if_false]
  rw [hout]
  dsimp only
  by_cases hA : has_policy_or_runbook ((ranked.take n).map (fun sc => sc.snd)) = true
  · -- the top-n selection already holds a policy/runbook chunk
    obtain ⟨ch, hchmem, hchp⟩ : ∃ ch, ch ∈ (ranked.take n).map (fun sc => sc.snd) ∧
        isPolicyOrRunbook ch = true := by
      have := List.any_eq_true.mp hA
      exact this
    obtain ⟨sc, hscmem, hsceq⟩ := List.mem_map.mp hchmem
    refine ⟨mkItem (tokenizeIK query) sc, ?_, ?_⟩
    · have hcond1 : ¬ ((!(ranked.take n).isEmpty &&
          !has_policy_or_runbook ((ranked.take n).map (fun sc => sc.snd))) = true) := by
        rw [hA]
        simp
      rw [if_neg hcond1,
        if_neg (by rw [htake_isEmpty]; simp : ¬ ((ranked.take n).isEmpty = true))]
      rw [List.take_take]
      simp only [Nat.min_self]
      exact List.mem_map.mpr ⟨sc, hscmem, rfl⟩
    · show isPolicyOrRunbook sc.snd = true
      rw [hsceq]
      exact hchp
  · -- swap branch: the last selected element is replaced by the policy hit
    have hAfalse : has_policy_or_runbook ((ranked.take n).map (fun sc => sc.snd)) = false := by
      cases hx : has_policy_or_runbook ((ranked.take n).map (fun sc => sc.snd)) with
      | true => exact absurd hx hA
      | false => rfl
    have hlen : ((ranked.take n).dropLast ++ [(score_for_chunk ranked pr.snd, pr.snd)]).length
        ≤ n := by
      have h1 : (ranked.take n).length ≤ n := List.length_take_le n ranked
      have h2 : 1 ≤ (ranked.take n).length := by
        cases hx : ranked.take n with
        | nil => exact absurd hx htakene
        | cons a l => simp
      simp only [List.length_append, List.length_dropLast, List.length_cons,
        List.length_nil]
      omega
    refine ⟨mkItem (tokenizeIK query) (score_for_chunk ranked pr.snd, pr.snd), ?_, ?_⟩
    · have hcond1 : (!(ranked.take n).isEmpty &&
          !has_policy_or_runbook ((ranked.take n).map (fun sc => sc.snd))) = true := by
        rw [htake_isEmpty, hAfalse]
        rfl
      rw [if_pos hcond1, hbest]
      dsimp only
      -- after the swap the selection is non-empty, so the second fallback is skipped
      have hne2 : ¬ (((ranked.take n).dropLast ++
          [(score_for_chunk ranked pr.snd, pr.snd)]).isEmpty = true) := by
        cases hx : (ranked.take n).dropLast with
        | nil => simp [hx]
        | cons a l => simp [hx]
      rw [if_neg hne2]
      rw [List.take_of_length_le hlen]
      exact List.mem_map.mpr ⟨_, List.mem_append_right _ (List.mem_singleton.mpr rfl), rfl⟩
    · show isPolicyOrRunbook pr.snd = true
      exact hprp

/-- Witness for C6: a corpus where the top-1 selection is a ticket chunk and
the swap brings in the policy chunk. -/
theorem C6_policy_guarantee_witness :
    ∃ item ∈ search_incident_knowledge "alpha beta".data 1 none none
        [{ title := "Ticket T-9: checkout down".data, text := "alpha beta".data,
           source_type := "jira_ticket".data, source_id := "T-9".data },
         { title := "Policy: Incident Comms".data, text := "alpha".data,
           source_type := "policy".data, source_id := "p1".data }],
      (hasSubL (lowerL item.title) "policy".data ||
        hasSubL (lowerL item.title) "runbook".data) = true :=
  C6_policy_guarantee "alpha beta".data 1 none none
    [{ title := "Ticket T-9: checkout down".data, text := "alpha beta".data,
       source_type := "jira_ticket".data, source_id := "T-9".data },
     { title := "Policy: Incident Comms".data, text := "alpha".data,
       source_type := "policy".data, source_id := "p1".data }]
    { title := "Policy: Incident Comms".data, text := "alpha".data,
      source_type := "policy".data, source_id := "p1".data }
    (by decide) (by decide) (by decide) (by decide)

end TaskChain.IncidentKnowledge
